import Mathlib

/-!
Verification development for the `putertg` Telegram bot handler
(`api/bot.js`, final revision; helper revisions in `src/unnamed`).

The handler is a stateless webhook: whitelist gate, command branches,
then a chat flow that loads history from a key-value store, routes the
message through a search-intent classifier, optionally augments the
prompt with Tavily results, dispatches to a completion provider with
credential rotation, formats the reply, persists the bounded history
and sends the reply in chunks.

Network calls, randomness and the key-value store are modelled as
explicit inputs (oracle functions and tagged values); every JavaScript
string operation used by the handler is re-implemented by structural
recursion on the underlying character list so that all definitions
evaluate inside the kernel.
-/

namespace PuterBot

/-! ### JavaScript string primitives -/

/-- Whitespace recognised by the model of `String.prototype.trim`. -/
def isWsCh (c : Char) : Bool := c == ' ' || c == '\n' || c == '\t' || c == '\r'

/-- Drop leading and trailing whitespace from a character list. -/
def trimCh (l : List Char) : List Char :=
  ((l.dropWhile isWsCh).reverse.dropWhile isWsCh).reverse

/-- Model of `s.trim()`. -/
def jsTrim (s : String) : String := String.mk (trimCh s.data)

/-- Split a character list on a single separator character, keeping empty
segments, exactly as `s.split(sep)` does for a one-character separator
(in particular the empty list splits to one empty segment). -/
def splitCh (sep : Char) : List Char → List (List Char)
  | [] => [[]]
  | c :: t =>
      if c == sep then [] :: splitCh sep t
      else
        match splitCh sep t with
        | [] => [[c]]
        | p :: ps => (c :: p) :: ps

/-- Model of `s.split(sep)` for a one-character separator. -/
def jsSplit (sep : Char) (s : String) : List String := (splitCh sep s.data).map String.mk

/-- Lower-case one ASCII character. -/
def chToLower (c : Char) : Char :=
  if 65 ≤ c.toNat ∧ c.toNat ≤ 90 then Char.ofNat (c.toNat + 32) else c

/-- Model of `s.toLowerCase()` (ASCII, which covers the phrases compared). -/
def jsLower (s : String) : String := String.mk (s.data.map chToLower)

/-- Boolean test that the first list is an initial segment of the second. -/
def leadsCh : List Char → List Char → Bool
  | [], _ => true
  | _ :: _, [] => false
  | p :: ps, c :: cs => p == c && leadsCh ps cs

/-- Boolean test that `pat` occurs contiguously inside the second list. -/
def hasSubCh (pat : List Char) : List Char → Bool
  | [] => pat.isEmpty
  | c :: t => leadsCh pat (c :: t) || hasSubCh pat t

/-- Model of `s.includes(pat)`. -/
def jsIncludes (s pat : String) : Bool := hasSubCh pat.data s.data

/-- Model of `s.startsWith(pat)`. -/
def jsStartsWith (s pat : String) : Bool := leadsCh pat.data s.data

/-- Replace the first occurrence of `pat` (non-empty in all uses). -/
def replaceOnceCh (pat rep : List Char) : List Char → List Char
  | [] => []
  | c :: t =>
      if leadsCh pat (c :: t) then rep ++ (c :: t).drop pat.length
      else c :: replaceOnceCh pat rep t

/-- Model of `s.replace(pat, rep)` for a plain-string pattern, which
replaces only the first occurrence. -/
def jsReplaceOnce (s pat rep : String) : String :=
  String.mk (replaceOnceCh pat.data rep.data s.data)

/-! ### Tagged values from the key-value store

A value read back from the store is either absent (`null`/`undefined`,
falsy in JavaScript), an array, or some other (string-like) value; the
string case carries the corrupt-record scenarios, with `""` falsy and
any other string truthy. -/

inductive JsVal (α : Type) where
  | absent
  | arr (l : List α)
  | str (s : String)
deriving DecidableEq, Repr

/-! ### Provider payloads and `callClaudeWithRotation` (bot.js lines 517-567) -/

/-- Model of the default model constant (bot.js line 497). -/
def DEFAULT_MODEL : String := "claude-opus-4-5"

/-- One element of a structured content array returned by the provider;
`text` is `none` when the field is absent. -/
structure ContentBlock where
  type : String
  text : Option String
deriving DecidableEq, Repr

/-- Tagged shapes of the duck-typed payload probed at bot.js lines
534-550: falsy result, a structured error object, a bare string,
`message.content` as a string, `message.content` as a block array, a
top-level block array, and anything else carried as its
`JSON.stringify` rendering. -/
inductive Payload where
  | null
  | errObj (json : String)
  | str (s : String)
  | msgContentStr (s : String)
  | msgContentBlocks (blocks : List ContentBlock)
  | arrBlocks (blocks : List ContentBlock)
  | other (json : String)
deriving DecidableEq, Repr

/-- Truthiness of `b.text` (absent or empty string is falsy). -/
def blockTruthyText (b : ContentBlock) : Bool := (b.text.getD "") != ""

/-- Text normalisation of bot.js lines 537-550: bare strings pass
through, block arrays under `message.content` are filtered to textual
blocks and concatenated, a top-level array is concatenated without the
filter, and other objects are stringified. The `null`/`errObj` cases
never reach extraction (they throw first) and are mapped to `""`. -/
def extractText : Payload → String
  | .str s => s
  | .msgContentStr s => s
  | .msgContentBlocks bs =>
      String.join ((bs.filter fun b => b.type == "text" || blockTruthyText b).map
        fun b => b.text.getD "")
  | .arrBlocks bs => String.join (bs.map fun b => b.text.getD "")
  | .other j => j
  | .null => ""
  | .errObj j => j

/-- Quota phrases of bot.js line 555. -/
def failPhrases : List String :=
  ["usage limit", "quota", "insufficient credit", "out of credits", "rate limit"]

/-- Result of one `puter.ai.chat` call: a payload, or a thrown error. -/
inductive AttemptResult where
  | ok (p : Payload)
  | thrown (msg : String)
deriving DecidableEq, Repr

/-- Soft-failure test of bot.js lines 553-558: text below 150 characters
containing any quota phrase case-insensitively. -/
def isQuotaText (text : String) : Bool :=
  decide (text.length < 150) && failPhrases.any fun p => jsIncludes (jsLower text) p

/-- Validation of one attempt (the body of the `try` at bot.js lines
530-560): a thrown call fails, a falsy payload fails with
`Empty response`, a payload with an `error` field fails with its
stringification, and otherwise the extracted trimmed text is accepted
unless the soft-failure test flags it. -/
def singleAttempt : AttemptResult → Except String String
  | .thrown m => .error m
  | .ok .null => .error "Empty response"
  | .ok (.errObj j) => .error j
  | .ok p =>
      if isQuotaText (jsTrim (extractText p)) then
        .error ("Quota exceeded: " ++ jsTrim (extractText p))
      else .ok (jsTrim (extractText p))

/-- The credential loop of bot.js lines 529-566: try tokens in the given
(already shuffled) order, carrying the most recent error; when the list
is exhausted, fail with the aggregate message (an absent last error
interpolates as `undefined`). -/
def rotateTokens (attempt : String → AttemptResult) :
    List String → Option String → Except String String
  | [], last =>
      .error ("All tokens failed. Last error: " ++
        (match last with | some e => e | none => "undefined"))
  | t :: ts, _ =>
      match singleAttempt (attempt t) with
      | .ok text => .ok text
      | .error e => rotateTokens attempt ts (some e)

/-- Model of `callClaudeWithRotation` over the shuffled token list, with
the network call abstracted as the oracle `attempt`. -/
def callClaudeWithRotation (tokens : List String) (attempt : String → AttemptResult) :
    Except String String :=
  rotateTokens attempt tokens none

/-- Observation of the same loop: the tokens actually attempted, in
order (the loop breaks at the first accepted attempt). -/
def attemptedTokens (attempt : String → AttemptResult) : List String → List String
  | [] => []
  | t :: ts =>
      match singleAttempt (attempt t) with
      | .ok _ => [t]
      | .error _ => t :: attemptedTokens attempt ts

/-! ### Credential pool: `getAllTokens` (bot.js lines 500-515) -/

/-- First-occurrence deduplication, the order produced by
`[...new Set(list)]`. -/
def jsSetDedup : List String → List String
  | [] => []
  | x :: xs => x :: (jsSetDedup xs).filter fun y => y != x

/-- Static tokens: `(PUTER_AUTH_TOKEN || "").split(",").map(trim)`
filtered to non-empty entries (bot.js lines 501-502). -/
def staticTokensOf (raw : String) : List String :=
  ((jsSplit ',' raw).map jsTrim).filter fun t => 0 < t.length

/-- Dynamic tokens from `kv.get("extra_tokens")`: a thrown fetch is
caught and yields `[]`, and any non-array value is replaced by `[]`
(bot.js lines 504-510). -/
def dynTokensOf : Except String (JsVal String) → List String
  | .ok (.arr l) => l
  | _ => []

/-- Model of `getAllTokens`: deduplicated union of static and dynamic
tokens, raising when the combined pool is empty (bot.js lines 512-514). -/
def getAllTokens (envRaw : String) (kvTokens : Except String (JsVal String)) :
    Except String (List String) :=
  if (jsSetDedup (staticTokensOf envRaw ++ dynTokensOf kvTokens)).length = 0 then
    .error "No PUTER_AUTH_TOKEN found in Env or DB."
  else .ok (jsSetDedup (staticTokensOf envRaw ++ dynTokensOf kvTokens))

/-! ### Search augmenter: `performTavilyResearch` (bot.js lines 570-595) -/

/-- One search hit as consumed by the renderer (`r.title`, `r.content`). -/
structure TavilyItem where
  title : String
  content : String
deriving DecidableEq, Repr

/-- Result of the single `fetch` to the search endpoint: a thrown error,
or a response with its `ok` flag, optional `answer` and optional
`results`. -/
inductive FetchOutcome where
  | thrown (msg : String)
  | resp (ok : Bool) (answer : Option String) (results : Option (List TavilyItem))
deriving DecidableEq, Repr

/-- Configured search keys: split on commas, trimmed, falsy entries
dropped (bot.js line 574). -/
def tavilyKeys (raw : String) : List String :=
  ((jsSplit ',' raw).map jsTrim).filter fun k => k != ""

/-- The one key the function attempts:
`keys[Math.floor(Math.random() * keys.length)]` (bot.js line 575), with
the random draw supplied as an arbitrary index reduced modulo the pool
size; an out-of-range access is carried as `""`. -/
def tavilySelectedKey (raw : String) (randIdx : Nat) : String :=
  (tavilyKeys raw).getD (randIdx % (tavilyKeys raw).length) ""

/-- Rendering of bot.js lines 587-590: summary line (an absent `answer`
interpolates as `undefined`) then one indexed line per result. -/
def renderTavily (answer : Option String) (results : Option (List TavilyItem)) : String :=
  "Tavily AI Summary: " ++ answer.getD "undefined" ++ "\n\nDetails:\n" ++
    (match results with
     | none => ""
     | some rs =>
         String.join (rs.enum.map fun ir =>
           "[" ++ toString (ir.1 + 1) ++ "] " ++ ir.2.title ++ ": " ++ ir.2.content ++ "\n"))

/-- Model of `performTavilyResearch`: `null` for an unset/empty key
variable, otherwise a single attempt against one randomly selected key,
returning `null` on a thrown error or a non-`ok` status and the
rendered block on success. -/
def performTavilyResearch (apiKeyRaw : String) (randIdx : Nat)
    (fetch : String → FetchOutcome) : Option String :=
  if apiKeyRaw = "" then none
  else
    match fetch (tavilySelectedKey apiKeyRaw randIdx) with
    | .thrown _ => none
    | .resp ok answer results => if ok then some (renderTavily answer results) else none

/-! ### Conversation store -/

/-- One stored message. -/
structure Msg where
  role : String
  content : String
deriving DecidableEq, Repr

/-- History load of the final handler, bot.js line 797:
`await kv.get(dbKey) || []` replaces only falsy values (absent record,
empty string) by `[]`; a truthy non-array value passes through
unchanged. -/
def loadHistoryFinal : JsVal Msg → JsVal Msg
  | .absent => .arr []
  | .str s => if s = "" then .arr [] else .str s
  | .arr l => .arr l

/-- History load of the earlier revision (src/unnamed/part_004 lines
51-54): `if (!Array.isArray(history)) history = []` maps every
non-array value to the empty history. -/
def loadHistoryGuarded : JsVal Msg → List Msg
  | .arr l => l
  | _ => []

/-- Model of `history.push(m)`: appends when the value is an array and
throws a `TypeError` otherwise. -/
def pushMsg : JsVal Msg → Msg → Except String (List Msg)
  | .arr l, m => .ok (l ++ [m])
  | _, _ => .error "history.push is not a function"

/-- The FIFO bound applied before every save, bot.js line 894:
`if (history.length > 20) history = history.slice(-20)`. -/
def trimHistory (h : List Msg) : List Msg :=
  if 20 < h.length then h.drop (h.length - 20) else h

/-! ### Reply chunkers -/

/-- Fuel-carrying core of the fixed-stride chunker (fuel is the initial
length, enough for every positive stride). -/
def chunkEveryAux (n : Nat) : Nat → List Char → List (List Char)
  | 0, _ => []
  | _, [] => []
  | fuel + 1, c :: t => (c :: t).take n :: chunkEveryAux n fuel ((c :: t).drop n)

/-- Fixed-stride chunker: the loop
`for (i = 0; i < s.length; i += n) s.substring(i, i + n)`. -/
def chunkEvery (n : Nat) (l : List Char) : List (List Char) := chunkEveryAux n l.length l

/-- The send loop of the final handler, bot.js lines 897-900: hard cuts
every 4000 characters. -/
def handlerChunks (s : String) : List String := (chunkEvery 4000 s.data).map String.mk

/-- The line-accumulating loop of `sendLongMessage` (middle revision,
bot.js lines 300-320): before adding a line that would push the pending
chunk past the limit, flush the pending chunk (even when it is empty);
always append the line plus a newline to the pending chunk; after the
loop, send the pending chunk when its trimmed length is positive. -/
def sendLongLoop (maxLen : Nat) : List (List Char) → List Char → List (List Char)
  | [], chunk => if 0 < (trimCh chunk).length then [chunk] else []
  | line :: rest, chunk =>
      if maxLen < chunk.length + line.length + 1 then
        chunk :: sendLongLoop maxLen rest (line ++ ['\n'])
      else sendLongLoop maxLen rest (chunk ++ line ++ ['\n'])

/-- Chunking performed by `sendLongMessage` (middle revision, bot.js
lines 282-321): texts within the limit are sent whole, longer texts are
split on newlines and re-accumulated by `sendLongLoop`; the source
fixes `maxLen` to `MAX_LENGTH = 4000`. -/
def sendLongChunks (maxLen : Nat) (text : List Char) : List (List Char) :=
  if text.length ≤ maxLen then [text] else sendLongLoop maxLen (splitCh '\n' text) []

/-! ### Chat flow of the final handler (bot.js lines 598-912)

The observable behaviour of one request is its ordered trace of
effects plus the HTTP status of the acknowledgment. Outbound sends are
modelled as always succeeding; the network calls (provider dispatch,
search) are oracle parameters, as are the per-chat model preference and
the pure markdown rewrite of lines 883-889 (no claim depends on the
rewrite itself, so the theorems hold for every rewrite function). -/

/-- One observable effect of the handler. -/
inductive Eff where
  | typing
  | kvGetHistory
  | kvGetModel
  | providerCall
  | searchCall
  | kvSetHistory (h : List Msg)
  | sendMsg (text : String)
deriving DecidableEq, Repr

/-- Router system prompt of bot.js lines 810-835. -/
def routerPromptOf (dateString : String) : String :=
  "Current Date: " ++ dateString ++
  "\n\nTASK: Determine if the user\x27s query requires external search.\nOUTPUT FORMAT: Strictly \"SEARCH: <query>\" OR \"DIRECT_ANSWER\" only. Do NOT answer the question.\n\nRULES:\n1. SEARCH=TRUE if the query involves:\n   - Recent or real-time information (News, Weather, Sports, Stocks).\n   - \"Today\", \"Yesterday\", \"Current\", \"Latest\".\n   - Status of people/entities (Alive/Dead, Net Worth, CEO).\n   - Prices, Product Availability, Release Dates.\n   - Factual claims requiring verification.\n   - Specific URLs or Website content.\n\n2. SEARCH=FALSE (DIRECT_ANSWER) if:\n   - General knowledge (History pre-2023, Science definitions).\n   - Coding, Math, Logic, Reasoning.\n   - Creative writing, Roleplay, Opinions.\n   - Timeless concepts.\n\nExamples:\n\"Is Enrile dead?\" -> SEARCH: current status Juan Ponce Enrile alive or dead\n\"News on Duterte\" -> SEARCH: latest news Rodrigo Duterte\n\"Weather Manila\" -> SEARCH: weather forecast Manila today\n\"Write a python script\" -> DIRECT_ANSWER\n\"Who is Jose Rizal?\" -> DIRECT_ANSWER"

/-- Model of `list.slice(-n)`. -/
def takeLast {α : Type} (n : Nat) (l : List α) : List α := l.drop (l.length - n)

/-- Router call input: the router prompt plus the last three history
entries (bot.js lines 837-840). -/
def routerMsgsOf (dateString : String) (history : List Msg) : List Msg :=
  ⟨"system", routerPromptOf dateString⟩ :: takeLast 3 history

/-- Search query extraction, bot.js line 848:
`routerResponse.replace("SEARCH:", "").trim()`. -/
def searchQueryOf (routerResponse : String) : String :=
  jsTrim (jsReplaceOnce routerResponse "SEARCH:" "")

/-- Hidden provenance suffix, bot.js lines 853-855: empty when the
search returned nothing. -/
def hiddenOf (q : String) : Option String → String
  | some sr =>
      "\n\n:::SEARCH_CONTEXT:::\nQuery: " ++ q ++ "\n" ++ sr ++ "\n:::END_SEARCH_CONTEXT:::"
  | none => ""

/-- Injected context message, bot.js lines 857-860. -/
def contextMsgOf (dateString q : String) (searchResults : Option String) : Msg :=
  ⟨"system",
    "[SYSTEM DATA]\nDate: " ++ dateString ++ "\nSearch Query: \"" ++ q ++
    "\"\nResults:\n" ++ searchResults.getD "No results found." ++
    "\n\nInstruction: Answer the user\x27s question directly using these results.\n\nCRITICAL STYLE RULE: Do NOT say \"Based on the search results\". Answer confidently. STRICTLY NO MARKDOWN TABLES. Use bullet points or plain text lists instead."⟩

/-- Answer call input on the search path, bot.js lines 862-867. -/
def answerMsgsSearch (sysPrompt : Option String) (history : List Msg) (ctx : Msg)
    (userMessage : String) : List Msg :=
  ⟨"system", sysPrompt.getD "You are a helpful assistant."⟩ ::
    (history.dropLast ++ [ctx, ⟨"user", userMessage⟩])

/-- Answer call input on the direct path, bot.js lines 871-878. -/
def answerMsgsDirect (sysPrompt : Option String) (history : List Msg) : List Msg :=
  ⟨"system",
    sysPrompt.getD "You are a helpful assistant." ++
    "\n\nSTRICT OUTPUT RULE: Do NOT use Markdown tables. Use bullet points or plain text formats only."⟩ :: history

/-- History after loading and appending the user message (bot.js lines
797-798); fails when the stored value is a truthy non-array. -/
def userHistoryOf (stored : JsVal Msg) (userMessage : String) : Except String (List Msg) :=
  pushMsg (loadHistoryFinal stored) ⟨"user", userMessage⟩

/-- Effects of the catch block, bot.js lines 902-906: when the error
message includes `Markdown` the block evaluates `finalResponse`, whose
`let` binding at line 844 is scoped inside the `try`, so a
`ReferenceError` is raised and swallowed by the inner catch and nothing
is sent; otherwise the visible error message is sent. -/
def catchEffs (errMsg : String) : List Eff :=
  if jsIncludes errMsg "Markdown" then [] else [.sendMsg ("⚠️ Error: " ++ errMsg)]

/-- Tail of the success path, bot.js lines 891-900: append the assistant
message (displayed reply plus hidden suffix), trim, save, then send the
displayed reply in hard-cut chunks. -/
def finishEffs (history : List Msg) (hidden cleanReply : String) : List Eff :=
  .kvSetHistory (trimHistory (history ++ [⟨"assistant", cleanReply ++ hidden⟩])) ::
    (handlerChunks cleanReply).map .sendMsg

/-- Chat flow of bot.js lines 793-906 as an effect trace plus HTTP
status: load and append, router dispatch, optional search augmentation,
answer dispatch, format, persist, send; any thrown step diverts to the
catch block, after which the handler still acknowledges with 200. -/
def chatFlow (stored : JsVal Msg) (modelPref sysPrompt : Option String)
    (dateString userMessage : String)
    (dispatch : List Msg → String → Except String String)
    (research : String → Option String) (clean : String → String) : List Eff × Nat :=
  match userHistoryOf stored userMessage with
  | .error e => ([.typing, .kvGetHistory] ++ catchEffs e, 200)
  | .ok history =>
    match dispatch (routerMsgsOf dateString history) DEFAULT_MODEL with
    | .error e => ([.typing, .kvGetHistory, .kvGetModel, .providerCall] ++ catchEffs e, 200)
    | .ok routerResponse =>
      if jsStartsWith (jsTrim routerResponse) "SEARCH:" then
        match dispatch
            (answerMsgsSearch sysPrompt history
              (contextMsgOf dateString (searchQueryOf routerResponse)
                (research (searchQueryOf routerResponse))) userMessage)
            (modelPref.getD DEFAULT_MODEL) with
        | .error e =>
            ([.typing, .kvGetHistory, .kvGetModel, .providerCall, .typing, .searchCall,
              .providerCall] ++ catchEffs e, 200)
        | .ok finalResponse =>
            ([.typing, .kvGetHistory, .kvGetModel, .providerCall, .typing, .searchCall,
              .providerCall] ++
              finishEffs history
                (hiddenOf (searchQueryOf routerResponse) (research (searchQueryOf routerResponse)))
                (clean finalResponse), 200)
      else
        match dispatch (answerMsgsDirect sysPrompt history) (modelPref.getD DEFAULT_MODEL) with
        | .error e =>
            ([.typing, .kvGetHistory, .kvGetModel, .providerCall] ++ catchEffs e, 200)
        | .ok finalResponse =>
            ([.typing, .kvGetHistory, .kvGetModel, .providerCall] ++
              finishEffs history "" (clean finalResponse), 200)

/-- Allow list of bot.js line 609:
`(process.env.WHITELIST || "").split(",").map(trim)` with no
empty-entry filter. -/
def allowedList (whitelistEnv : Option String) : List String :=
  (jsSplit ',' (whitelistEnv.getD "")).map jsTrim

/-- Whitelist gate of bot.js line 610:
`allowed.length > 0 && !allowed.includes(chatId.toString())`. -/
def whitelistBlocks (whitelistEnv : Option String) (cid : String) : Bool :=
  decide (0 < (allowedList whitelistEnv).length) && !((allowedList whitelistEnv).contains cid)

/-- Trigger tests of the command branches, bot.js lines 615-791 (token
injection, then the slash commands). -/
def isCommandMessage (m : String) : Bool :=
  (jsStartsWith m "ey" && !(jsIncludes m " ") && decide (50 < m.length)) ||
  m == "/start" || m == "/clear" || m == "/tokens" || m == "/cleartokens" ||
  jsStartsWith m "/use" || m == "/reset" || m == "/current" || m == "/bal" ||
  m == "/credits" || m == "/models"

/-- POST handler for a text message, bot.js lines 598-912: whitelist
gate (an early empty-bodied 200 with no effects), then the command
branches (out of scope here, their trace abstracted as `commandEffs`),
then the chat flow. -/
def handlerModel (whitelistEnv : Option String) (cid rawText : String)
    (commandEffs : List Eff) (stored : JsVal Msg) (modelPref sysPrompt : Option String)
    (dateString : String) (dispatch : List Msg → String → Except String String)
    (research : String → Option String) (clean : String → String) : List Eff × Nat :=
  if whitelistBlocks whitelistEnv cid then ([], 200)
  else if isCommandMessage (jsTrim rawText) then (commandEffs, 200)
  else chatFlow stored modelPref sysPrompt dateString (jsTrim rawText) dispatch research clean

/-- Texts sent to the chat, in order, from an effect trace. -/
def sentTexts (effs : List Eff) : List String :=
  effs.filterMap fun e => match e with | .sendMsg s => some s | _ => none

/-- Histories written to the store, in order, from an effect trace. -/
def savedHistories (effs : List Eff) : List (List Msg) :=
  effs.filterMap fun e => match e with | .kvSetHistory h => some h | _ => none

/-- Value at the history key after replaying an effect trace. -/
def storeAfterEffs (v : JsVal Msg) (effs : List Eff) : JsVal Msg :=
  effs.foldl (fun acc e => match e with | Eff.kvSetHistory h => JsVal.arr h | _ => acc) v

/-! ### Observation helpers and concrete fixtures -/

/-- Payloads that reach text extraction (everything except the falsy
payload and the structured error object, which throw earlier). -/
def reachesExtraction : Payload → Bool
  | .null => false
  | .errObj _ => false
  | _ => true

/-- Whether one validated attempt was accepted. -/
def isOkExcept : Except String String → Bool
  | .ok _ => true
  | .error _ => false

/-- Error message of a failed attempt (empty for an accepted one). -/
def errTextOf : Except String String → String
  | .error e => e
  | .ok _ => ""

/-- Message interpolated as the last error once the pool is exhausted:
the error of the final attempted token, or `undefined` for an empty
pool. -/
def lastErrOf (attempt : String → AttemptResult) (tokens : List String) : String :=
  match tokens.getLast? with
  | some tl => errTextOf (singleAttempt (attempt tl))
  | none => "undefined"

/-- Fixture: credential 1 answers with a disguised quota payload,
credential 2 with a normal short answer. -/
def quotaThenOkOracle : String → AttemptResult :=
  fun t =>
    if t == "t1" then .ok (.msgContentStr "You have reached your usage limit")
    else .ok (.str "hello")

/-- Fixture: every credential throws. -/
def allThrowOracle : String → AttemptResult := fun _ => .thrown "boom"

/-- Fixture: only credential `b` answers normally, the rest throw. -/
def okAtBOracle : String → AttemptResult :=
  fun t => if t == "b" then .ok (.str "hello") else .thrown "boom"

/-- Fixture: the search endpoint rejects key `k1` with a non-success
status and succeeds for every other key. -/
def tavilyFailK1Fetch : String → FetchOutcome :=
  fun k => if k == "k1" then .resp false none none else .resp true (some "A") (some [])

/-- Fixture: every provider dispatch fails with an exhausted-pool error. -/
def allFailDispatch : List Msg → String → Except String String :=
  fun _ _ => .error "All tokens failed. Last error: boom"

/-- Fixture: every provider dispatch fails with an exhausted-pool error
whose provider-controlled tail mentions `Markdown`. -/
def markdownFailDispatch : List Msg → String → Except String String :=
  fun _ _ => .error "All tokens failed. Last error: Markdown quota reached"

/-- Fixture: every dispatch answers with a search directive. -/
def searchSayDispatch : List Msg → String → Except String String :=
  fun _ _ => .ok "SEARCH: manila"

/-- Fixture: search always yields the block `R`. -/
def constResearch : String → Option String := fun _ => some "R"

/-- Fixture: search always fails. -/
def noResearch : String → Option String := fun _ => none

/-- Fixture: a single 4001-character line. -/
def longLine : List Char := List.replicate 4001 'a'

/-- Fixture: two 2500-character lines separated by a newline. -/
def twoLines : List Char := List.replicate 2500 'a' ++ '\n' :: List.replicate 2500 'b'

/-- Concatenation of a list of sent texts. -/
def concatTexts : List String → String
  | [] => ""
  | s :: rest => s ++ concatTexts rest

/-! ## Lemmas about the credential loop -/

theorem rotateTokens_allFail (attempt : String → AttemptResult) :
    ∀ (tokens : List String) (last : Option String),
      (∀ t ∈ tokens, isOkExcept (singleAttempt (attempt t)) = false) →
      rotateTokens attempt tokens last =
        .error ("All tokens failed. Last error: " ++
          (match tokens.getLast? with
           | some tl => errTextOf (singleAttempt (attempt tl))
           | none => match last with | some e => e | none => "undefined")) := by
  intro tokens
  induction tokens with
  | nil => intro last _; rfl
  | cons t ts ih =>
    intro last hall
    have ht := hall t (List.mem_cons_self t ts)
    cases hs : singleAttempt (attempt t) with
    | ok v => rw [hs] at ht; simp [isOkExcept] at ht
    | error e =>
      have step : rotateTokens attempt (t :: ts) last = rotateTokens attempt ts (some e) := by
        simp only [rotateTokens, hs]
      rw [step, ih (some e) (fun u hu => hall u (List.mem_cons_of_mem t hu))]
      cases ts with
      | nil => simp [errTextOf, hs]
      | cons u us =>
        obtain ⟨a, ha⟩ :=
          Option.isSome_iff_exists.mp (List.getLast?_isSome.mpr (List.cons_ne_nil u us))
        rw [List.getLast?_cons_cons, ha]

theorem attemptedTokens_allFail (attempt : String → AttemptResult) :
    ∀ tokens : List String,
      (∀ t ∈ tokens, isOkExcept (singleAttempt (attempt t)) = false) →
      attemptedTokens attempt tokens = tokens := by
  intro tokens
  induction tokens with
  | nil => intro _; rfl
  | cons t ts ih =>
    intro hall
    have ht := hall t (List.mem_cons_self t ts)
    cases hs : singleAttempt (attempt t) with
    | ok v => rw [hs] at ht; simp [isOkExcept] at ht
    | error e =>
      simp only [attemptedTokens, hs]
      rw [ih (fun u hu => hall u (List.mem_cons_of_mem t hu))]

theorem rotateTokens_stopAtSuccess (attempt : String → AttemptResult) (s : String) :
    ∀ (pre : List String) (t : String) (post : List String) (last : Option String),
      (∀ u ∈ pre, isOkExcept (singleAttempt (attempt u)) = false) →
      singleAttempt (attempt t) = .ok s →
      rotateTokens attempt (pre ++ t :: post) last = .ok s := by
  intro pre
  induction pre with
  | nil =>
    intro t post last _ hok
    simp only [List.nil_append, rotateTokens, hok]
  | cons u us ih =>
    intro t post last hall hok
    have hu := hall u (List.mem_cons_self u us)
    cases hs : singleAttempt (attempt u) with
    | ok v => rw [hs] at hu; simp [isOkExcept] at hu
    | error e =>
      simp only [List.cons_append, rotateTokens, hs]
      exact ih t post (some e) (fun w hw => hall w (List.mem_cons_of_mem u hw)) hok

theorem attemptedTokens_stopAtSuccess (attempt : String → AttemptResult) (s : String) :
    ∀ (pre : List String) (t : String) (post : List String),
      (∀ u ∈ pre, isOkExcept (singleAttempt (attempt u)) = false) →
      singleAttempt (attempt t) = .ok s →
      attemptedTokens attempt (pre ++ t :: post) = pre ++ [t] := by
  intro pre
  induction pre with
  | nil =>
    intro t post _ hok
    simp only [List.nil_append, attemptedTokens, hok]
  | cons u us ih =>
    intro t post hall hok
    have hu := hall u (List.mem_cons_self u us)
    cases hs : singleAttempt (attempt u) with
    | ok v => rw [hs] at hu; simp [isOkExcept] at hu
    | error e =>
      simp only [List.cons_append, attemptedTokens, hs]
      show u :: attemptedTokens attempt (us ++ t :: post) = u :: (us ++ [t])
      rw [ih t post (fun w hw => hall w (List.mem_cons_of_mem u hw)) hok]

/-! ## Claim C1 -/

/-- C1: during dispatch, a payload whose extracted (trimmed) text is
shorter than 150 characters and contains a quota phrase
case-insensitively is treated as a failure — the attempt produces the
quota error and the loop moves on to the next credential in the
permuted order; in particular the payload
`{message:{content:"You have reached your usage limit"}}` under a pool
of two credentials causes credential 1 to be skipped and credential 2
to be used even though credential 1 returned a successful response. -/
theorem soft_failure_detection :
    (∀ (p : Payload) (attempt : String → AttemptResult) (t : String) (ts : List String)
        (last : Option String),
        reachesExtraction p = true →
        (jsTrim (extractText p)).length < 150 →
        (failPhrases.any fun ph => jsIncludes (jsLower (jsTrim (extractText p))) ph) = true →
        attempt t = .ok p →
        singleAttempt (attempt t) =
            .error ("Quota exceeded: " ++ jsTrim (extractText p)) ∧
          rotateTokens attempt (t :: ts) last =
            rotateTokens attempt ts (some ("Quota exceeded: " ++ jsTrim (extractText p))) ∧
          attemptedTokens attempt (t :: ts) = t :: attemptedTokens attempt ts) ∧
    (∀ (t1 t2 : String) (attempt : String → AttemptResult) (s : String),
        attempt t1 = .ok (.msgContentStr "You have reached your usage limit") →
        singleAttempt (attempt t2) = .ok s →
        callClaudeWithRotation [t1, t2] attempt = .ok s ∧
          attemptedTokens attempt [t1, t2] = [t1, t2]) := by
  constructor
  · intro p attempt t ts last hre h1 h2 hat
    have hq : isQuotaText (jsTrim (extractText p)) = true := by
      unfold isQuotaText
      rw [h2]
      simp [h1]
    have hs : singleAttempt (attempt t) =
        .error ("Quota exceeded: " ++ jsTrim (extractText p)) := by
      rw [hat]
      cases p with
      | null => simp [reachesExtraction] at hre
      | errObj j => simp [reachesExtraction] at hre
      | str s => simp [singleAttempt, hq]
      | msgContentStr s => simp [singleAttempt, hq]
      | msgContentBlocks bs => simp [singleAttempt, hq]
      | arrBlocks bs => simp [singleAttempt, hq]
      | other j => simp [singleAttempt, hq]
    refine ⟨hs, ?_, ?_⟩
    · simp only [rotateTokens, hs]
    · simp only [attemptedTokens, hs]
  · intro t1 t2 attempt s hat1 hat2
    have hs1 : singleAttempt (attempt t1) =
        .error "Quota exceeded: You have reached your usage limit" := by
      rw [hat1]; rfl
    constructor
    · show rotateTokens attempt [t1, t2] none = .ok s
      simp only [rotateTokens, hs1, hat2]
    · simp only [attemptedTokens, hs1, hat2]

/-- Witness for C1 at the concrete pool `["t1", "t2"]` with the quota
payload on credential 1. -/
theorem soft_failure_detection_witness :
    callClaudeWithRotation ["t1", "t2"] quotaThenOkOracle = .ok "hello" ∧
      attemptedTokens quotaThenOkOracle ["t1", "t2"] = ["t1", "t2"] :=
  soft_failure_detection.2 "t1" "t2" quotaThenOkOracle "hello" (by rfl) (by rfl)

/-! ## Claim C2 -/

/-- C2: when every credential in the (permuted) pool fails, the loop
attempts each credential exactly once in order and returns the
aggregate failure carrying the most recent error; as soon as one
credential succeeds, no later credential is attempted. -/
theorem rotation_exhaustion :
    (∀ (tokens : List String) (attempt : String → AttemptResult),
        (∀ t ∈ tokens, isOkExcept (singleAttempt (attempt t)) = false) →
        attemptedTokens attempt tokens = tokens ∧
          callClaudeWithRotation tokens attempt =
            .error ("All tokens failed. Last error: " ++ lastErrOf attempt tokens)) ∧
    (∀ (pre : List String) (t : String) (post : List String)
        (attempt : String → AttemptResult) (s : String),
        (∀ u ∈ pre, isOkExcept (singleAttempt (attempt u)) = false) →
        singleAttempt (attempt t) = .ok s →
        attemptedTokens attempt (pre ++ t :: post) = pre ++ [t] ∧
          callClaudeWithRotation (pre ++ t :: post) attempt = .ok s) := by
  constructor
  · intro tokens attempt hall
    refine ⟨attemptedTokens_allFail attempt tokens hall, ?_⟩
    unfold callClaudeWithRotation
    rw [rotateTokens_allFail attempt tokens none hall]
    cases tokens with
    | nil => rfl
    | cons t ts => rfl
  · intro pre t post attempt s hall hok
    exact ⟨attemptedTokens_stopAtSuccess attempt s pre t post hall hok,
      rotateTokens_stopAtSuccess attempt s pre t post none hall hok⟩

/-- Witness for C2: a two-token pool where every attempt throws, and a
three-token pool whose middle token succeeds. -/
theorem rotation_exhaustion_witness :
    (attemptedTokens allThrowOracle ["a", "b"] = ["a", "b"] ∧
      callClaudeWithRotation ["a", "b"] allThrowOracle =
        .error ("All tokens failed. Last error: " ++ lastErrOf allThrowOracle ["a", "b"])) ∧
    (attemptedTokens okAtBOracle (["a"] ++ "b" :: ["c"]) = ["a"] ++ ["b"] ∧
      callClaudeWithRotation (["a"] ++ "b" :: ["c"]) okAtBOracle = .ok "hello") :=
  ⟨rotation_exhaustion.1 ["a", "b"] allThrowOracle (by decide),
    rotation_exhaustion.2 ["a"] "b" ["c"] okAtBOracle "hello" (by decide) (by rfl)⟩

/-! ## Lemmas about deduplication and the history bound -/

theorem mem_jsSetDedup (a : String) : ∀ l : List String, a ∈ jsSetDedup l ↔ a ∈ l := by
  intro l
  induction l with
  | nil => simp [jsSetDedup]
  | cons x xs ih =>
    simp only [jsSetDedup, List.mem_cons, List.mem_filter, bne_iff_ne, ne_eq, ih]
    constructor
    · rintro (rfl | ⟨hm, _⟩)
      · exact Or.inl rfl
      · exact Or.inr hm
    · rintro (rfl | hm)
      · exact Or.inl rfl
      · by_cases hx : a = x
        · exact Or.inl hx
        · exact Or.inr ⟨hm, hx⟩

theorem nodup_jsSetDedup : ∀ l : List String, (jsSetDedup l).Nodup := by
  intro l
  induction l with
  | nil => simp [jsSetDedup]
  | cons x xs ih =>
    simp only [jsSetDedup, List.nodup_cons]
    refine ⟨?_, ih.filter _⟩
    intro hx
    have := (List.mem_filter.mp hx).2
    simp at this

theorem jsSetDedup_eq_nil : ∀ l : List String, jsSetDedup l = [] ↔ l = [] := by
  intro l
  cases l with
  | nil => simp [jsSetDedup]
  | cons x xs => simp [jsSetDedup]

theorem trimHistory_length_le (h : List Msg) : (trimHistory h).length ≤ 20 := by
  unfold trimHistory
  split
  · simp only [List.length_drop]; omega
  · omega

theorem trimHistory_eq_drop (h : List Msg) : trimHistory h = h.drop (h.length - 20) := by
  unfold trimHistory
  split
  · rfl
  · rename_i hh
    have h0 : h.length - 20 = 0 := by omega
    rw [h0, List.drop_zero]

theorem trimHistory_getLast? (h : List Msg) (hne : h ≠ []) :
    (trimHistory h).getLast? = h.getLast? := by
  rw [trimHistory_eq_drop]
  have hlt : h.length - 20 < h.length := by
    have : 0 < h.length := List.length_pos.mpr hne
    omega
  conv_rhs => rw [← List.take_append_drop (h.length - 20) h]
  rw [List.getLast?_append]
  have hne2 : h.drop (h.length - 20) ≠ [] := by
    intro hc
    have := congrArg List.length hc
    simp only [List.length_drop, List.length_nil] at this
    omega
  obtain ⟨a, ha⟩ := Option.isSome_iff_exists.mp (List.getLast?_isSome.mpr hne2)
  rw [ha]
  rfl

theorem catchEffs_no_save (e : String) (h' : List Msg) :
    Eff.kvSetHistory h' ∉ catchEffs e := by
  intro hm
  unfold catchEffs at hm
  split at hm
  · simp at hm
  · simp at hm

theorem finishEffs_save (hist : List Msg) (hidden rep : String) (h' : List Msg) :
    Eff.kvSetHistory h' ∈ finishEffs hist hidden rep →
    h' = trimHistory (hist ++ [⟨"assistant", rep ++ hidden⟩]) := by
  intro hm
  unfold finishEffs at hm
  rcases List.mem_cons.mp hm with h1 | h2
  · simp only [Eff.kvSetHistory.injEq] at h1
    exact h1
  · exfalso
    simp [List.mem_map] at h2

/-! ## Claim C8 -/

/-- C8: the effective credential pool returned by `getAllTokens` is the
deduplicated union of the static (environment) and dynamic
(runtime-registered) sources — each credential appears at most once no
matter how many sources contain it — and the call raises precisely when
both sources are empty. -/
theorem credential_pool_dedup_union :
    ∀ (envRaw : String) (kvTokens : Except String (JsVal String)),
      (∀ pool, getAllTokens envRaw kvTokens = .ok pool →
          pool.Nodup ∧
            ∀ tok, tok ∈ pool ↔ (tok ∈ staticTokensOf envRaw ∨ tok ∈ dynTokensOf kvTokens)) ∧
      (getAllTokens envRaw kvTokens = .error "No PUTER_AUTH_TOKEN found in Env or DB." ↔
        (staticTokensOf envRaw = [] ∧ dynTokensOf kvTokens = [])) := by
  intro envRaw kvTokens
  constructor
  · intro pool hok
    unfold getAllTokens at hok
    split at hok
    · exact absurd hok (by simp)
    · have hpool : pool = jsSetDedup (staticTokensOf envRaw ++ dynTokensOf kvTokens) := by
        injection hok with h
        exact h.symm
      subst hpool
      refine ⟨nodup_jsSetDedup _, ?_⟩
      intro tok
      rw [mem_jsSetDedup, List.mem_append]
  · constructor
    · intro herr
      unfold getAllTokens at herr
      split at herr
      · rename_i hlen
        have : jsSetDedup (staticTokensOf envRaw ++ dynTokensOf kvTokens) = [] :=
          List.eq_nil_of_length_eq_zero hlen
        have happ := (jsSetDedup_eq_nil _).mp this
        exact List.append_eq_nil.mp happ
      · exact absurd herr (by simp)
    · rintro ⟨hs, hd⟩
      unfold getAllTokens
      rw [hs, hd]
      rfl

/-- Witness for C8: overlapping static string `"a, b,a"` and dynamic
list `["b", "c"]` merge to the pool `["a", "b", "c"]`; with both
sources empty (and the dynamic fetch failing) the call raises. -/
theorem credential_pool_dedup_union_witness :
    (["a", "b", "c"] : List String).Nodup ∧
    ("b" ∈ (["a", "b", "c"] : List String) ↔
      ("b" ∈ staticTokensOf "a, b,a" ∨ "b" ∈ dynTokensOf (Except.ok (JsVal.arr ["b", "c"])))) ∧
    (getAllTokens "" (Except.error "kv down") =
        .error "No PUTER_AUTH_TOKEN found in Env or DB." ↔
      (staticTokensOf "" = [] ∧ dynTokensOf (Except.error "kv down") = [])) := by
  have h := (credential_pool_dedup_union "a, b,a" (Except.ok (JsVal.arr ["b", "c"]))).1
    ["a", "b", "c"] (by rfl)
  exact ⟨h.1, h.2 "b", (credential_pool_dedup_union "" (Except.error "kv down")).2⟩

/-! ## Claim C4 -/

/-- C4: the history written by a save never exceeds 20 messages: the
trim keeps exactly the newest messages as a contiguous suffix (so the
oldest are dropped and the surviving order is untouched), histories
already within the cap are unchanged, a 25-message history is trimmed
to exactly its newest 20 with the oldest 5 dropped, and every history
the chat flow writes to the store is within the cap. -/
theorem history_bounding :
    (∀ h : List Msg,
        (trimHistory h).length ≤ 20 ∧
        trimHistory h = h.drop (h.length - 20) ∧
        h.take (h.length - 20) ++ trimHistory h = h ∧
        (h.length ≤ 20 → trimHistory h = h) ∧
        (h.length = 25 → trimHistory h = h.drop 5 ∧ (trimHistory h).length = 20)) ∧
    (∀ (stored : JsVal Msg) (modelPref sysPrompt : Option String)
        (dateString userMessage : String)
        (dispatch : List Msg → String → Except String String)
        (research : String → Option String) (clean : String → String) (h' : List Msg),
        Eff.kvSetHistory h' ∈
          (chatFlow stored modelPref sysPrompt dateString userMessage dispatch research clean).1 →
        h'.length ≤ 20) := by
  constructor
  · intro h
    refine ⟨trimHistory_length_le h, trimHistory_eq_drop h, ?_, ?_, ?_⟩
    · rw [trimHistory_eq_drop]
      exact List.take_append_drop _ h
    · intro hle
      unfold trimHistory
      split
      · omega
      · rfl
    · intro h25
      refine ⟨?_, ?_⟩
      · rw [trimHistory_eq_drop, h25]
      · rw [trimHistory_eq_drop]
        simp only [List.length_drop]
        omega
  · intro stored mp sp ds um dispatch research clean h' hmem
    unfold chatFlow at hmem
    cases hu : userHistoryOf stored um with
    | error e =>
      simp only [hu] at hmem
      rcases List.mem_append.mp hmem with hm | hm
      · simp at hm
      · exact absurd hm (catchEffs_no_save e h')
    | ok hist =>
      simp only [hu] at hmem
      cases hr : dispatch (routerMsgsOf ds hist) DEFAULT_MODEL with
      | error e =>
        simp only [hr] at hmem
        rcases List.mem_append.mp hmem with hm | hm
        · simp at hm
        · exact absurd hm (catchEffs_no_save e h')
      | ok rr =>
        simp only [hr] at hmem
        by_cases hsw : jsStartsWith (jsTrim rr) "SEARCH:" = true
        · simp only [hsw, if_pos] at hmem
          cases ha : dispatch
              (answerMsgsSearch sp hist
                (contextMsgOf ds (searchQueryOf rr) (research (searchQueryOf rr))) um)
              (mp.getD DEFAULT_MODEL) with
          | error e =>
            simp only [ha] at hmem
            rcases List.mem_append.mp hmem with hm | hm
            · simp at hm
            · exact absurd hm (catchEffs_no_save e h')
          | ok fr =>
            simp only [ha] at hmem
            rcases List.mem_append.mp hmem with hm | hm
            · simp at hm
            · rw [finishEffs_save _ _ _ _ hm]
              exact trimHistory_length_le _
        · rw [if_neg (by simpa using hsw)] at hmem
          cases ha : dispatch (answerMsgsDirect sp hist) (mp.getD DEFAULT_MODEL) with
          | error e =>
            simp only [ha] at hmem
            rcases List.mem_append.mp hmem with hm | hm
            · simp at hm
            · exact absurd hm (catchEffs_no_save e h')
          | ok fr =>
            simp only [ha] at hmem
            rcases List.mem_append.mp hmem with hm | hm
            · simp at hm
            · rw [finishEffs_save _ _ _ _ hm]
              exact trimHistory_length_le _

/-- Witness for C4 at a concrete 25-message history. -/
theorem history_bounding_witness :
    trimHistory (List.replicate 25 (⟨"user", "x"⟩ : Msg)) =
        (List.replicate 25 (⟨"user", "x"⟩ : Msg)).drop 5 ∧
      (trimHistory (List.replicate 25 (⟨"user", "x"⟩ : Msg))).length = 20 :=
  (history_bounding.1 (List.replicate 25 ⟨"user", "x"⟩)).2.2.2.2 (by simp)

/-! ## Lemmas about the chunkers -/

theorem chunkEveryAux_len (n : Nat) :
    ∀ (fuel : Nat) (l : List Char), ∀ c ∈ chunkEveryAux n fuel l, c.length ≤ n := by
  intro fuel
  induction fuel with
  | zero => intro l c hc; simp [chunkEveryAux] at hc
  | succ k ih =>
    intro l c hc
    match l with
    | [] => simp [chunkEveryAux] at hc
    | x :: t =>
      simp only [chunkEveryAux] at hc
      rcases List.mem_cons.mp hc with rfl | hc2
      · have := List.length_take n (x :: t)
        omega
      · exact ih _ c hc2

theorem chunkEveryAux_flatten (n : Nat) (hn : 0 < n) :
    ∀ (fuel : Nat) (l : List Char), l.length ≤ fuel → (chunkEveryAux n fuel l).flatten = l := by
  intro fuel
  induction fuel with
  | zero =>
    intro l hl
    have : l = [] := List.eq_nil_of_length_eq_zero (Nat.le_zero.mp hl)
    subst this; rfl
  | succ k ih =>
    intro l hl
    match l with
    | [] => rfl
    | c :: t =>
      simp only [chunkEveryAux, List.flatten_cons]
      rw [ih ((c :: t).drop n) (by simp only [List.length_drop]; simp at hl ⊢; omega)]
      exact List.take_append_drop n (c :: t)

theorem chunkEvery_flatten (n : Nat) (hn : 0 < n) (l : List Char) :
    (chunkEvery n l).flatten = l :=
  chunkEveryAux_flatten n hn l.length l le_rfl

theorem concatTexts_map_mk (ls : List (List Char)) :
    concatTexts (ls.map String.mk) = String.mk ls.flatten := by
  induction ls with
  | nil => rfl
  | cons a as ih =>
    show String.mk a ++ concatTexts (as.map String.mk) = String.mk (a ++ as.flatten)
    rw [ih]
    rfl

theorem concatTexts_handlerChunks (s : String) : concatTexts (handlerChunks s) = s := by
  unfold handlerChunks
  rw [concatTexts_map_mk, chunkEvery_flatten 4000 (by omega)]

/-! ## Lemmas about the chat flow -/

theorem chatFlow_router_error (stored : JsVal Msg) (mp sp : Option String) (ds um : String)
    (dispatch : List Msg → String → Except String String) (research : String → Option String)
    (clean : String → String) (H1 : List Msg) (e : String)
    (hH : userHistoryOf stored um = .ok H1)
    (hr : dispatch (routerMsgsOf ds H1) DEFAULT_MODEL = .error e) :
    chatFlow stored mp sp ds um dispatch research clean =
      ([.typing, .kvGetHistory, .kvGetModel, .providerCall] ++ catchEffs e, 200) := by
  unfold chatFlow
  simp only [hH, hr]

theorem chatFlow_search_success (stored : JsVal Msg) (mp sp : Option String) (ds um : String)
    (dispatch : List Msg → String → Except String String) (research : String → Option String)
    (clean : String → String) (H1 : List Msg) (rr fr : String)
    (hH : userHistoryOf stored um = .ok H1)
    (hr : dispatch (routerMsgsOf ds H1) DEFAULT_MODEL = .ok rr)
    (hsw : jsStartsWith (jsTrim rr) "SEARCH:" = true)
    (ha : dispatch
        (answerMsgsSearch sp H1
          (contextMsgOf ds (searchQueryOf rr) (research (searchQueryOf rr))) um)
        (mp.getD DEFAULT_MODEL) = .ok fr) :
    chatFlow stored mp sp ds um dispatch research clean =
      ([.typing, .kvGetHistory, .kvGetModel, .providerCall, .typing, .searchCall,
          .providerCall] ++
        finishEffs H1 (hiddenOf (searchQueryOf rr) (research (searchQueryOf rr))) (clean fr),
        200) := by
  unfold chatFlow
  simp only [hH, hr, hsw, if_true, ha]

theorem savedHistories_append (a b : List Eff) :
    savedHistories (a ++ b) = savedHistories a ++ savedHistories b := by
  simp [savedHistories, List.filterMap_append]

theorem sentTexts_append (a b : List Eff) :
    sentTexts (a ++ b) = sentTexts a ++ sentTexts b := by
  simp [sentTexts, List.filterMap_append]

theorem savedHistories_finishEffs (h : List Msg) (hid rep : String) :
    savedHistories (finishEffs h hid rep) = [trimHistory (h ++ [⟨"assistant", rep ++ hid⟩])] := by
  simp [savedHistories, finishEffs, List.filterMap_cons, List.filterMap_map, Function.comp]

theorem sentTexts_finishEffs (h : List Msg) (hid rep : String) :
    sentTexts (finishEffs h hid rep) = handlerChunks rep := by
  simp only [sentTexts, finishEffs, List.filterMap_cons, List.filterMap_map]
  show List.filterMap some (handlerChunks rep) = handlerChunks rep
  exact List.filterMap_some _

/-! ## Claim C5 -/

/-- C5 counterexample: a truthy non-array persisted value (the string
`corrupt`) is not replaced by the empty history by the final handler
load `kv.get(dbKey) || []`, and the subsequent `history.push` throws
instead of proceeding with an empty history. -/
theorem corrupt_history_not_normalized :
    loadHistoryFinal (JsVal.str "corrupt") ≠ JsVal.arr [] ∧
    loadHistoryFinal (JsVal.str "corrupt") = JsVal.str "corrupt" ∧
    pushMsg (loadHistoryFinal (JsVal.str "corrupt")) ⟨"user", "hi"⟩ =
      .error "history.push is not a function" :=
  ⟨by decide, rfl, rfl⟩

/-- C5 amended: the final handler load normalizes only falsy persisted
values — an absent record or an empty string — to the empty history
(arrays pass through unchanged), while the earlier loader of
src/unnamed/part_004 treats every non-array persisted value as the
empty history. -/
theorem history_load_normalization :
    loadHistoryFinal JsVal.absent = JsVal.arr [] ∧
    loadHistoryFinal (JsVal.str "") = JsVal.arr [] ∧
    (∀ l : List Msg, loadHistoryFinal (JsVal.arr l) = JsVal.arr l) ∧
    loadHistoryGuarded JsVal.absent = [] ∧
    (∀ s : String, loadHistoryGuarded (JsVal.str s) = []) ∧
    (∀ l : List Msg, loadHistoryGuarded (JsVal.arr l) = l) :=
  ⟨rfl, rfl, fun _ => rfl, rfl, fun _ => rfl, fun _ => rfl⟩

/-! ## Claim C6 -/

/-- C6 counterexample: with two configured keys of which only `k2`
succeeds, the augmenter returns `null` whenever the random draw selects
`k1` — it never moves on to `k2` — even though the draw selecting `k2`
shows that a configured key succeeds. -/
theorem tavily_no_rotation :
    performTavilyResearch "k1,k2" 0 tavilyFailK1Fetch = none ∧
    performTavilyResearch "k1,k2" 1 tavilyFailK1Fetch =
      some (renderTavily (some "A") (some [])) :=
  ⟨rfl, rfl⟩

/-- C6 amended: the augmenter of the final handler attempts exactly one
key, selected at random from the configured list: it returns `null`
when no key variable is configured, when the single attempt throws, or
when the response status is non-success — even if another configured
key would succeed — and returns the rendered result block when the
single attempt succeeds; a `null` result is non-fatal, the chat flow
still completes, saves and replies without search context. -/
theorem tavily_single_random_key :
    (∀ (randIdx : Nat) (fetch : String → FetchOutcome),
        performTavilyResearch "" randIdx fetch = none) ∧
    (∀ (raw : String) (randIdx : Nat) (fetch : String → FetchOutcome) (m : String),
        raw ≠ "" → fetch (tavilySelectedKey raw randIdx) = .thrown m →
        performTavilyResearch raw randIdx fetch = none) ∧
    (∀ (raw : String) (randIdx : Nat) (fetch : String → FetchOutcome)
        (a : Option String) (res : Option (List TavilyItem)),
        raw ≠ "" → fetch (tavilySelectedKey raw randIdx) = .resp false a res →
        performTavilyResearch raw randIdx fetch = none) ∧
    (∀ (raw : String) (randIdx : Nat) (fetch : String → FetchOutcome)
        (a : Option String) (res : Option (List TavilyItem)),
        raw ≠ "" → fetch (tavilySelectedKey raw randIdx) = .resp true a res →
        performTavilyResearch raw randIdx fetch = some (renderTavily a res)) ∧
    (∀ (stored : JsVal Msg) (mp sp : Option String) (ds um : String)
        (dispatch : List Msg → String → Except String String) (clean : String → String)
        (H1 : List Msg) (rr fr : String),
        userHistoryOf stored um = .ok H1 →
        dispatch (routerMsgsOf ds H1) DEFAULT_MODEL = .ok rr →
        jsStartsWith (jsTrim rr) "SEARCH:" = true →
        dispatch (answerMsgsSearch sp H1 (contextMsgOf ds (searchQueryOf rr) none) um)
          (mp.getD DEFAULT_MODEL) = .ok fr →
        (chatFlow stored mp sp ds um dispatch noResearch clean).2 = 200 ∧
          savedHistories (chatFlow stored mp sp ds um dispatch noResearch clean).1 =
            [trimHistory (H1 ++ [⟨"assistant", clean fr ++ hiddenOf (searchQueryOf rr) none⟩])] ∧
          concatTexts (sentTexts (chatFlow stored mp sp ds um dispatch noResearch clean).1) =
            clean fr) := by
  refine ⟨?_, ?_, ?_, ?_, ?_⟩
  · intro randIdx fetch
    rfl
  · intro raw randIdx fetch m hraw hf
    unfold performTavilyResearch
    rw [if_neg hraw, hf]
  · intro raw randIdx fetch a res hraw hf
    unfold performTavilyResearch
    rw [if_neg hraw, hf]
    rfl
  · intro raw randIdx fetch a res hraw hf
    unfold performTavilyResearch
    rw [if_neg hraw, hf]
    rfl
  · intro stored mp sp ds um dispatch clean H1 rr fr hH hr hsw ha
    have hflow := chatFlow_search_success stored mp sp ds um dispatch noResearch clean H1 rr fr
      hH hr hsw (by simpa [noResearch] using ha)
    rw [hflow]
    refine ⟨rfl, ?_, ?_⟩
    · rw [savedHistories_append, savedHistories_finishEffs]
      rfl
    · rw [sentTexts_append, sentTexts_finishEffs]
      show concatTexts (handlerChunks (clean fr)) = clean fr
      exact concatTexts_handlerChunks (clean fr)

/-- Witness for C6 at concrete keys, random draws and fetch outcomes. -/
theorem tavily_single_random_key_witness :
    performTavilyResearch "" 7 tavilyFailK1Fetch = none ∧
    performTavilyResearch "k1,k2" 0 (fun _ => FetchOutcome.thrown "netdown") = none ∧
    performTavilyResearch "k1,k2" 2 tavilyFailK1Fetch = none ∧
    performTavilyResearch "k1,k2" 3 tavilyFailK1Fetch =
      some (renderTavily (some "A") (some [])) :=
  ⟨tavily_single_random_key.1 7 tavilyFailK1Fetch,
    tavily_single_random_key.2.1 "k1,k2" 0 (fun _ => FetchOutcome.thrown "netdown") "netdown"
      (by decide) rfl,
    tavily_single_random_key.2.2.1 "k1,k2" 2 tavilyFailK1Fetch none none (by decide) rfl,
    tavily_single_random_key.2.2.2.1 "k1,k2" 3 tavilyFailK1Fetch (some "A") (some [])
      (by decide) rfl⟩

/-! ## Claim C3 -/

theorem strLength_append (a b : String) : (a ++ b).length = a.length + b.length := by
  cases a with
  | mk d1 =>
    cases b with
    | mk d2 =>
      show (d1 ++ d2).length = d1.length + d2.length
      exact List.length_append d1 d2

theorem hiddenOf_some_pos (q sr : String) : 0 < (hiddenOf q (some sr)).length := by
  unfold hiddenOf
  simp only [strLength_append]
  have h1 : 0 < ("\n\n:::SEARCH_CONTEXT:::\nQuery: " : String).length := by decide
  omega

/-- C3: on a search-augmented request, the assistant message persisted
to the store is the displayed reply followed by the hidden
search-provenance suffix, the text delivered to the user is exactly the
displayed reply (the concatenation of the sent chunks), and the
persisted text is strictly longer than the displayed text. -/
theorem hidden_suffix_persisted_not_sent :
    ∀ (stored : JsVal Msg) (mp sp : Option String) (ds um : String)
      (dispatch : List Msg → String → Except String String)
      (research : String → Option String) (clean : String → String)
      (H1 : List Msg) (rr fr sr : String),
      userHistoryOf stored um = .ok H1 →
      dispatch (routerMsgsOf ds H1) DEFAULT_MODEL = .ok rr →
      jsStartsWith (jsTrim rr) "SEARCH:" = true →
      research (searchQueryOf rr) = some sr →
      dispatch
          (answerMsgsSearch sp H1 (contextMsgOf ds (searchQueryOf rr) (some sr)) um)
          (mp.getD DEFAULT_MODEL) = .ok fr →
      (chatFlow stored mp sp ds um dispatch research clean).2 = 200 ∧
        savedHistories (chatFlow stored mp sp ds um dispatch research clean).1 =
          [trimHistory
            (H1 ++ [⟨"assistant", clean fr ++ hiddenOf (searchQueryOf rr) (some sr)⟩])] ∧
        concatTexts (sentTexts (chatFlow stored mp sp ds um dispatch research clean).1) =
          clean fr ∧
        (clean fr).length < (clean fr ++ hiddenOf (searchQueryOf rr) (some sr)).length := by
  intro stored mp sp ds um dispatch research clean H1 rr fr sr hH hr hsw hres ha
  have hflow := chatFlow_search_success stored mp sp ds um dispatch research clean H1 rr fr
    hH hr hsw (by rw [hres]; exact ha)
  rw [hflow]
  refine ⟨rfl, ?_, ?_, ?_⟩
  · rw [savedHistories_append, savedHistories_finishEffs, hres]
    rfl
  · rw [sentTexts_append, sentTexts_finishEffs]
    show concatTexts (handlerChunks (clean fr)) = clean fr
    exact concatTexts_handlerChunks (clean fr)
  · rw [strLength_append]
    have := hiddenOf_some_pos (searchQueryOf rr) sr
    omega

/-- Witness for C3 at a concrete search-augmented request. -/
theorem hidden_suffix_persisted_not_sent_witness :
    (chatFlow (JsVal.arr []) none none "d" "hi" searchSayDispatch constResearch
        (fun s => s)).2 = 200 ∧
      savedHistories (chatFlow (JsVal.arr []) none none "d" "hi" searchSayDispatch
          constResearch (fun s => s)).1 =
        [trimHistory
          ([⟨"user", "hi"⟩] ++
            [⟨"assistant",
              (fun s => s) "SEARCH: manila" ++
                hiddenOf (searchQueryOf "SEARCH: manila") (some "R")⟩])] ∧
      concatTexts (sentTexts (chatFlow (JsVal.arr []) none none "d" "hi" searchSayDispatch
          constResearch (fun s => s)).1) = (fun s => s) "SEARCH: manila" ∧
      ((fun s => s) "SEARCH: manila").length <
        ((fun s => s) "SEARCH: manila" ++
          hiddenOf (searchQueryOf "SEARCH: manila") (some "R")).length :=
  hidden_suffix_persisted_not_sent (JsVal.arr []) none none "d" "hi" searchSayDispatch
    constResearch (fun s => s) [⟨"user", "hi"⟩] "SEARCH: manila" "SEARCH: manila" "R"
    rfl rfl (by decide) rfl rfl

/-! ## Claim C9 -/

/-- C9 counterexample: a request whose every dispatch fails with an
error message containing `Markdown` (reachable, since the aggregate
message embeds provider-controlled text): the handler acknowledges 200
and leaves the store untouched, but sends no message at all — the
catch block evaluates the try-scoped `finalResponse` binding and the
resulting `ReferenceError` is swallowed by the inner catch — refuting
the claim that a visible error message is always sent. -/
theorem dispatch_error_silent_markdown :
    sentTexts (chatFlow (JsVal.arr []) none none "d" "hi" markdownFailDispatch noResearch
        (fun s => s)).1 = [] ∧
      storeAfterEffs (JsVal.arr [])
          (chatFlow (JsVal.arr []) none none "d" "hi" markdownFailDispatch noResearch
            (fun s => s)).1 = JsVal.arr [] ∧
      (chatFlow (JsVal.arr []) none none "d" "hi" markdownFailDispatch noResearch
        (fun s => s)).2 = 200 :=
  ⟨rfl, rfl, rfl⟩

/-- C9 amended: when every provider dispatch fails (for example all
credentials exhausted) after the user message has been appended in
memory, the handler catches the error, writes nothing to the store —
the persisted history equals its value before the request — and still
acknowledges the transport with 200; the visible error message is sent
exactly when the thrown message does not contain `Markdown`, and when
it does contain `Markdown` the catch block references the try-scoped
`finalResponse` binding and sends nothing. -/
theorem dispatch_error_atomicity :
    ∀ (h : List Msg) (mp sp : Option String) (ds um : String)
      (dispatch : List Msg → String → Except String String)
      (research : String → Option String) (clean : String → String) (e : String),
      (∀ (ms : List Msg) (m : String), dispatch ms m = .error e) →
      (chatFlow (JsVal.arr h) mp sp ds um dispatch research clean).2 = 200 ∧
        storeAfterEffs (JsVal.arr h)
            (chatFlow (JsVal.arr h) mp sp ds um dispatch research clean).1 =
          JsVal.arr h ∧
        savedHistories (chatFlow (JsVal.arr h) mp sp ds um dispatch research clean).1 = [] ∧
        sentTexts (chatFlow (JsVal.arr h) mp sp ds um dispatch research clean).1 =
          (if jsIncludes e "Markdown" then [] else ["⚠️ Error: " ++ e]) := by
  intro h mp sp ds um dispatch research clean e hd
  have hH : userHistoryOf (JsVal.arr h) um = .ok (h ++ [⟨"user", um⟩]) := rfl
  have hflow := chatFlow_router_error (JsVal.arr h) mp sp ds um dispatch research clean
    (h ++ [⟨"user", um⟩]) e hH (hd _ _)
  rw [hflow]
  unfold catchEffs
  by_cases hm : jsIncludes e "Markdown" = true
  · rw [if_pos hm, if_pos hm]
    exact ⟨rfl, rfl, rfl, rfl⟩
  · rw [if_neg hm, if_neg hm]
    exact ⟨rfl, rfl, rfl, rfl⟩

/-- Witness for C9: a pool whose failure message does not mention
`Markdown` and one whose message does; in both the store is untouched
and the handler acknowledges 200. -/
theorem dispatch_error_atomicity_witness :
    ((chatFlow (JsVal.arr []) none none "d" "hi" allFailDispatch noResearch (fun s => s)).2 =
        200 ∧
      storeAfterEffs (JsVal.arr [])
          (chatFlow (JsVal.arr []) none none "d" "hi" allFailDispatch noResearch
            (fun s => s)).1 = JsVal.arr [] ∧
      savedHistories
          (chatFlow (JsVal.arr []) none none "d" "hi" allFailDispatch noResearch
            (fun s => s)).1 = [] ∧
      sentTexts
          (chatFlow (JsVal.arr []) none none "d" "hi" allFailDispatch noResearch
            (fun s => s)).1 =
        (if jsIncludes "All tokens failed. Last error: boom" "Markdown" then []
         else ["⚠️ Error: " ++ "All tokens failed. Last error: boom"])) ∧
    ((chatFlow (JsVal.arr [⟨"user", "prev"⟩]) none none "d" "hi" markdownFailDispatch
        noResearch (fun s => s)).2 = 200 ∧
      storeAfterEffs (JsVal.arr [⟨"user", "prev"⟩])
          (chatFlow (JsVal.arr [⟨"user", "prev"⟩]) none none "d" "hi" markdownFailDispatch
            noResearch (fun s => s)).1 = JsVal.arr [⟨"user", "prev"⟩] ∧
      savedHistories
          (chatFlow (JsVal.arr [⟨"user", "prev"⟩]) none none "d" "hi" markdownFailDispatch
            noResearch (fun s => s)).1 = [] ∧
      sentTexts
          (chatFlow (JsVal.arr [⟨"user", "prev"⟩]) none none "d" "hi" markdownFailDispatch
            noResearch (fun s => s)).1 =
        (if jsIncludes "All tokens failed. Last error: Markdown quota reached" "Markdown"
         then [] else ["⚠️ Error: " ++ "All tokens failed. Last error: Markdown quota reached"])) :=
  ⟨dispatch_error_atomicity [] none none "d" "hi" allFailDispatch noResearch (fun s => s)
      "All tokens failed. Last error: boom" (fun _ _ => rfl),
    dispatch_error_atomicity [⟨"user", "prev"⟩] none none "d" "hi" markdownFailDispatch
      noResearch (fun s => s) "All tokens failed. Last error: Markdown quota reached"
      (fun _ _ => rfl)⟩

/-! ## Claim C10 -/

/-- C10: with the `WHITELIST` variable unset or empty, the computed
allow list is the one-element list containing the empty string, so
every chat identifier (identifiers render as non-empty strings) fails
the membership test and the handler returns the empty-bodied 200
acknowledgment immediately — no reply is sent, the store is neither
read nor written, and no provider or search call is made (the effect
trace is empty). -/
theorem empty_whitelist_blocks_all :
    ∀ (whitelistEnv : Option String) (cid rawText : String) (commandEffs : List Eff)
      (stored : JsVal Msg) (mp sp : Option String) (ds : String)
      (dispatch : List Msg → String → Except String String)
      (research : String → Option String) (clean : String → String),
      (whitelistEnv = none ∨ whitelistEnv = some "") →
      cid ≠ "" →
      allowedList whitelistEnv = [""] ∧
        whitelistBlocks whitelistEnv cid = true ∧
        handlerModel whitelistEnv cid rawText commandEffs stored mp sp ds dispatch research
            clean = ([], 200) := by
  intro whitelistEnv cid rawText commandEffs stored mp sp ds dispatch research clean hw hc
  have hall : allowedList whitelistEnv = [""] := by
    rcases hw with rfl | rfl <;> rfl
  have hbeq : (cid == ("" : String)) = false := beq_eq_false_iff_ne.mpr hc
  have hblk : whitelistBlocks whitelistEnv cid = true := by
    unfold whitelistBlocks
    rw [hall]
    simp only [List.length_cons, List.length_nil, List.contains_cons, List.contains_nil,
      hbeq, Bool.or_false, Bool.not_false, Bool.and_true]
    decide
  refine ⟨hall, hblk, ?_⟩
  unfold handlerModel
  rw [hblk]
  rfl

/-- Witness for C10: an unset whitelist blocks the concrete chat
identifier `12345`. -/
theorem empty_whitelist_blocks_all_witness :
    allowedList none = [""] ∧
      whitelistBlocks none "12345" = true ∧
      handlerModel none "12345" "hi" [] (JsVal.arr []) none none "d" allFailDispatch
          noResearch (fun s => s) = ([], 200) :=
  empty_whitelist_blocks_all none "12345" "hi" [] (JsVal.arr []) none none "d"
    allFailDispatch noResearch (fun s => s) (Or.inl rfl) (by decide)

/-! ## Claim C7 -/

theorem splitCh_no_sep (sep : Char) :
    ∀ l : List Char, (∀ c ∈ l, c ≠ sep) → splitCh sep l = [l] := by
  intro l
  induction l with
  | nil => intro _; rfl
  | cons c t ih =>
    intro hns
    have hcs : (c == sep) = false :=
      beq_eq_false_iff_ne.mpr (hns c (List.mem_cons_self c t))
    simp only [splitCh, hcs]
    rw [if_neg (by simp)]
    rw [ih fun x hx => hns x (List.mem_cons_of_mem c hx)]

theorem splitCh_append_sep (sep : Char) :
    ∀ (l1 rest : List Char), (∀ c ∈ l1, c ≠ sep) →
      splitCh sep (l1 ++ sep :: rest) = l1 :: splitCh sep rest := by
  intro l1
  induction l1 with
  | nil =>
    intro rest _
    simp only [List.nil_append, splitCh]
    rw [if_pos (by simp)]
  | cons c t ih =>
    intro rest hns
    have hcs : (c == sep) = false :=
      beq_eq_false_iff_ne.mpr (hns c (List.mem_cons_self c t))
    simp only [List.cons_append, splitCh, hcs]
    rw [if_neg (by simp)]
    rw [show t.append (sep :: rest) = t ++ sep :: rest from rfl]
    rw [ih rest fun x hx => hns x (List.mem_cons_of_mem c hx)]

theorem trim_rep_newline (c : Char) (hc : isWsCh c = false) (n : Nat) (hn : n ≠ 0) :
    trimCh (List.replicate n c ++ ['\n']) = List.replicate n c := by
  obtain ⟨m, rfl⟩ := Nat.exists_eq_succ_of_ne_zero hn
  unfold trimCh
  have hdrop1 : (List.replicate (m + 1) c ++ ['\n']).dropWhile isWsCh =
      List.replicate (m + 1) c ++ ['\n'] := by
    rw [List.replicate_succ, List.cons_append, List.dropWhile_cons]
    simp [hc]
  rw [hdrop1, List.reverse_append]
  simp only [List.reverse_cons, List.reverse_nil, List.nil_append, List.singleton_append]
  rw [List.dropWhile_cons]
  have hnl : isWsCh '\n' = true := rfl
  rw [hnl]
  simp only [if_true]
  rw [List.reverse_replicate, List.replicate_succ, List.dropWhile_cons]
  simp only [hc]
  rw [if_neg (by simp)]
  rw [← List.replicate_succ, List.reverse_replicate]

theorem sendLongLoop_ends (maxLen : Nat) :
    ∀ (lines : List (List Char)) (chunk : List Char),
      (chunk = [] ∨ chunk.getLast? = some '\n') →
      ∀ c ∈ sendLongLoop maxLen lines chunk, c = [] ∨ c.getLast? = some '\n' := by
  intro lines
  induction lines with
  | nil =>
    intro chunk hch c hc
    unfold sendLongLoop at hc
    split at hc
    · rw [List.mem_singleton] at hc
      subst hc
      exact hch
    · simp at hc
  | cons line rest ih =>
    intro chunk hch c hc
    unfold sendLongLoop at hc
    split at hc
    · rcases List.mem_cons.mp hc with rfl | hc2
      · exact hch
      · exact ih (line ++ ['\n']) (Or.inr (List.getLast?_concat line)) c hc2
    · exact ih (chunk ++ line ++ ['\n']) (Or.inr (List.getLast?_concat (chunk ++ line))) c hc

theorem sendLongLoop_bounded (maxLen : Nat) :
    ∀ (lines : List (List Char)) (chunk : List Char),
      (∀ l ∈ lines, l.length + 1 ≤ maxLen) →
      chunk.length ≤ maxLen →
      ∀ c ∈ sendLongLoop maxLen lines chunk, c.length ≤ maxLen := by
  intro lines
  induction lines with
  | nil =>
    intro chunk _ hchunk c hc
    unfold sendLongLoop at hc
    split at hc
    · rw [List.mem_singleton] at hc
      subst hc
      exact hchunk
    · simp at hc
  | cons line rest ih =>
    intro chunk hlines hchunk c hc
    have hline := hlines line (List.mem_cons_self line rest)
    have hrest : ∀ l ∈ rest, l.length + 1 ≤ maxLen :=
      fun l hl => hlines l (List.mem_cons_of_mem line hl)
    unfold sendLongLoop at hc
    split at hc
    · rcases List.mem_cons.mp hc with rfl | hc2
      · exact hchunk
      · refine ih (line ++ ['\n']) hrest ?_ c hc2
        simp only [List.length_append, List.length_cons, List.length_nil]
        omega
    · rename_i hguard
      refine ih (chunk ++ line ++ ['\n']) hrest ?_ c hc
      simp only [List.length_append, List.length_cons, List.length_nil] at hguard ⊢
      omega

theorem longLine_chunks : sendLongChunks 4000 longLine = [[], longLine ++ ['\n']] := by
  unfold longLine sendLongChunks
  rw [if_neg (by rw [List.length_replicate]; omega)]
  rw [splitCh_no_sep '\n' _ (fun c hcm => by rw [List.eq_of_mem_replicate hcm]; decide)]
  unfold sendLongLoop
  rw [if_pos (by simp only [List.length_nil, List.length_replicate]; omega)]
  unfold sendLongLoop
  rw [if_pos (by
    rw [trim_rep_newline 'a' rfl 4001 (by decide), List.length_replicate]
    omega)]

theorem twoLines_split :
    splitCh '\n' twoLines =
      [List.replicate 2500 'a', List.replicate 2500 'b'] := by
  unfold twoLines
  rw [splitCh_append_sep '\n' (List.replicate 2500 'a') (List.replicate 2500 'b')
    (fun c hcm => by rw [List.eq_of_mem_replicate hcm]; decide)]
  rw [splitCh_no_sep '\n' (List.replicate 2500 'b')
    (fun c hcm => by rw [List.eq_of_mem_replicate hcm]; decide)]

theorem twoLines_chunks :
    sendLongChunks 4000 twoLines =
      [List.replicate 2500 'a' ++ ['\n'], List.replicate 2500 'b' ++ ['\n']] := by
  have hlen : twoLines.length = 5001 := by
    simp only [twoLines, List.length_append, List.length_cons, List.length_replicate]
  unfold sendLongChunks
  rw [if_neg (by omega)]
  rw [twoLines_split]
  unfold sendLongLoop
  rw [if_neg (by simp only [List.length_nil, List.length_replicate]; omega)]
  unfold sendLongLoop
  rw [if_pos (by
    simp only [List.nil_append, List.length_append, List.length_cons, List.length_nil,
      List.length_replicate]
    omega)]
  unfold sendLongLoop
  rw [if_pos (by
    rw [trim_rep_newline 'b' rfl 2500 (by decide)]
    simp only [List.length_replicate]
    omega)]
  rw [List.nil_append]

/-- C7 counterexample: a reply consisting of a single 4001-character
line is not hard-cut at the 4000-character limit — `sendLongMessage`
first flushes the (empty) pending chunk and then emits the whole line
plus its appended newline as one chunk of 4002 characters, which
exceeds the limit. -/
theorem chunking_not_hard_cut :
    sendLongChunks 4000 longLine = [[], longLine ++ ['\n']] ∧
      4000 < (longLine ++ ['\n']).length := by
  refine ⟨longLine_chunks, ?_⟩
  simp only [longLine, List.length_append, List.length_replicate, List.length_cons,
    List.length_nil]
  omega

/-- C7 amended: for a reply longer than the 4000-character limit,
`sendLongMessage` splits only at line boundaries — every emitted chunk
is empty or ends with a newline, so no chunk breaks a line — and when
every line of the reply is shorter than the limit every emitted chunk
is within the limit; but an over-long line is emitted whole as a chunk
exceeding the limit rather than hard-cut. The final handler instead
sends `cleanReply` in chunks hard-cut every 4000 characters regardless
of line boundaries, each within the limit. -/
theorem chunking_line_boundaries :
    (∀ text : List Char, 4000 < text.length →
        (∀ c ∈ sendLongChunks 4000 text, c = [] ∨ c.getLast? = some '\n') ∧
        ((∀ l ∈ splitCh '\n' text, l.length < 4000) →
          ∀ c ∈ sendLongChunks 4000 text, c.length ≤ 4000)) ∧
    (∀ s : String, ∀ c ∈ handlerChunks s, c.length ≤ 4000) := by
  constructor
  · intro text hlen
    have hne : ¬ (text.length ≤ 4000) := by omega
    constructor
    · intro c hc
      unfold sendLongChunks at hc
      rw [if_neg hne] at hc
      exact sendLongLoop_ends 4000 (splitCh '\n' text) [] (Or.inl rfl) c hc
    · intro hlines c hc
      unfold sendLongChunks at hc
      rw [if_neg hne] at hc
      refine sendLongLoop_bounded 4000 (splitCh '\n' text) [] ?_ (by simp) c hc
      intro l hl
      have := hlines l hl
      omega
  · intro s c hc
    unfold handlerChunks at hc
    obtain ⟨cl, hcl, rfl⟩ := List.mem_map.mp hc
    show cl.length ≤ 4000
    exact chunkEveryAux_len 4000 _ _ cl hcl

/-- Witness for C7 at a concrete 5001-character two-line reply. -/
theorem chunking_line_boundaries_witness :
    ((List.replicate 2500 'a' ++ ['\n'] : List Char) = [] ∨
        (List.replicate 2500 'a' ++ ['\n'] : List Char).getLast? = some '\n') ∧
      (List.replicate 2500 'a' ++ ['\n'] : List Char).length ≤ 4000 := by
  have hlen : 4000 < twoLines.length := by
    simp only [twoLines, List.length_append, List.length_cons, List.length_replicate]
    omega
  have h := chunking_line_boundaries.1 twoLines hlen
  have hmem : (List.replicate 2500 'a' ++ ['\n'] : List Char) ∈ sendLongChunks 4000 twoLines := by
    rw [twoLines_chunks]
    exact List.mem_cons_self _ _
  have hlines : ∀ l ∈ splitCh '\n' twoLines, l.length < 4000 := by
    rw [twoLines_split]
    intro l hl
    rcases List.mem_cons.mp hl with rfl | hl2
    · simp only [List.length_replicate]
      omega
    · rcases List.mem_cons.mp hl2 with rfl | hl3
      · simp only [List.length_replicate]
        omega
      · simp at hl3
  exact ⟨h.1 _ hmem, h.2 hlines _ hmem⟩

end PuterBot
